import Mathlib

/-!
Verification of the Docxodus-Viewer state-orchestration and presentation
layer: a shallow embedding of the settings/conversion orchestration in
`DocumentViewer.tsx`, the revision statistics and format-change diff in
`RevisionPanel.tsx`, and the add/remove/download pipeline in
`AnnotationViewer.tsx`, together with theorems settling the spec's claims.
-/

namespace Docxodus

/-! ## Generic string helpers (JS semantics on character lists) -/

/-- Boolean prefix test on character lists (`String.prototype.startsWith` at one
position, used to implement substring search). -/
def listPrefix : List Char → List Char → Bool
  | [], _ => true
  | _ :: _, [] => false
  | a :: as, b :: bs => a == b && listPrefix as bs

/-- Boolean substring test on character lists, modelling JS
`String.prototype.includes`. -/
def listInfix (pat : List Char) : List Char → Bool
  | [] => listPrefix pat []
  | c :: rest => listPrefix pat (c :: rest) || listInfix pat rest

/-- `containsSub s pat` models JS `s.includes(pat)`. -/
def containsSub (s pat : String) : Bool := listInfix pat.toList s.toList

/-- One step of JS `String.prototype.replace` with a string pattern: replace the
first occurrence of `pat` (as a character list) by `repl`. -/
def replaceFirstAux (pat repl : List Char) : List Char → List Char
  | [] => if pat = [] then repl else []
  | c :: cs =>
      if listPrefix pat (c :: cs) then repl ++ (c :: cs).drop pat.length
      else c :: replaceFirstAux pat repl cs

/-- JS `s.replace(pat, repl)` with a string pattern: replaces only the first
occurrence of `pat`. -/
def replaceFirst (s pat repl : String) : String :=
  String.mk (replaceFirstAux pat.toList repl.toList s.toList)

/-- JS string `||` (the left operand when truthy, i.e. non-empty, else the
right operand). -/
def jsOrStr (a b : String) : String := if a = "" then b else a

end Docxodus

namespace Docxodus

/-! ## DocumentViewer.tsx: settings model and conversion orchestration -/

/-- The engine's comment-rendering enum (`CommentRenderMode` from the external
`docxodus` package, per the spec's settings model). -/
inductive CommentRenderMode
  | Disabled
  | EndnoteStyle
  | Inline
  | Margin
deriving DecidableEq

/-- The engine's pagination enum (`PaginationMode` from the external `docxodus`
package, per the spec's settings model). -/
inductive PaginationMode
  | None
  | Paginated
deriving DecidableEq

/-- The viewer-local comment mode union type (`type CommentMode` in
`DocumentViewer.tsx`). -/
inductive CommentMode
  | disabled
  | endnote
  | inlineMode
  | margin
deriving DecidableEq

/-- The options object built by `getConvertOptions` and passed to the engine's
`convert` call. Pagination scale is kept as a rational number standing for the
JS float. -/
structure ConvertOptions where
  commentRenderMode : CommentRenderMode
  pageTitle : String
  cssPrefix : String
  fabricateClasses : Bool
  additionalCss : Option String
  commentCssClassPrefix : String
  paginationMode : PaginationMode
  paginationScale : Option ℚ
deriving DecidableEq

/-- The `DocumentViewer` component's state variables; files are identified by an
opaque handle (`Nat`), since their bytes never matter to the orchestration. -/
structure ViewerState where
  fileName : String
  commentMode : CommentMode
  pendingFile : Option Nat
  enablePagination : Bool
  paginationScale : ℚ
  showPageNumbers : Bool
  pageTitle : String
  cssPrefix : String
  fabricateClasses : Bool
  additionalCss : String
  commentCssClassPrefix : String

/-- `getCommentRenderMode` from `DocumentViewer.tsx`. -/
def getCommentRenderMode : CommentMode → CommentRenderMode
  | .endnote => .EndnoteStyle
  | .inlineMode => .Inline
  | .margin => .Margin
  | .disabled => .Disabled

/-- `getConvertOptions` from `DocumentViewer.tsx` (`additionalCss || undefined`
drops an empty string; pagination fields depend on the toggle). -/
def getConvertOptions (s : ViewerState) : ConvertOptions :=
  { commentRenderMode := getCommentRenderMode s.commentMode
    pageTitle := s.pageTitle
    cssPrefix := s.cssPrefix
    fabricateClasses := s.fabricateClasses
    additionalCss := if s.additionalCss = "" then none else some s.additionalCss
    commentCssClassPrefix := s.commentCssClassPrefix
    paginationMode := if s.enablePagination then .Paginated else .None
    paginationScale := if s.enablePagination then some s.paginationScale else none }

/-- A dispatched engine conversion call: the pending file plus the options. -/
def ConvertCall := Nat × ConvertOptions

/-- `reconvert` from `DocumentViewer.tsx`: re-invoke conversion on the pending
file with the current options, or do nothing when no file is loaded. -/
def reconvert (s : ViewerState) : Option ConvertCall :=
  s.pendingFile.map (fun f => (f, getConvertOptions s))

/-- The settings-change events the `DocumentViewer` UI can emit: each `set…`
event is a control's `onChange`, and each `commit…` event is the corresponding
`onBlur` / `onMouseUp` / `onTouchEnd` that calls `reconvert`. -/
inductive SettingsEvent
  | setCommentMode (m : CommentMode)
  | togglePagination (b : Bool)
  | setPaginationScale (q : ℚ)
  | commitPaginationScale
  | setShowPageNumbers (b : Bool)
  | setPageTitle (t : String)
  | commitPageTitle
  | setCssPrefix (p : String)
  | commitCssPrefix
  | setCommentCssClassPrefix (p : String)
  | commitCommentCssClassPrefix
  | setAdditionalCss (c : String)
  | commitAdditionalCss
  | setFabricateClasses (b : Bool)

/-- One settings-change event step of `DocumentViewer.tsx`: the updated state
plus the engine conversion call dispatched by the handler, if any. Mirrors
`handleCommentModeChange`, `handlePaginationToggle`, the `fabricateClasses`
checkbox `onChange`, the plain `set…` state updates, and the `reconvert`
commit handlers. -/
def handleSettingsEvent (s : ViewerState) : SettingsEvent → ViewerState × Option ConvertCall
  | .setCommentMode m =>
      ({ s with commentMode := m },
       s.pendingFile.map (fun f =>
         (f, { getConvertOptions s with commentRenderMode := getCommentRenderMode m })))
  | .togglePagination b =>
      ({ s with enablePagination := b },
       s.pendingFile.map (fun f =>
         (f, { commentRenderMode := getCommentRenderMode s.commentMode
               pageTitle := s.pageTitle
               cssPrefix := s.cssPrefix
               fabricateClasses := s.fabricateClasses
               additionalCss := if s.additionalCss = "" then none else some s.additionalCss
               commentCssClassPrefix := s.commentCssClassPrefix
               paginationMode := if b then .Paginated else .None
               paginationScale := if b then some s.paginationScale else none })))
  | .setPaginationScale q => ({ s with paginationScale := q }, none)
  | .commitPaginationScale => (s, reconvert s)
  | .setShowPageNumbers b => ({ s with showPageNumbers := b }, none)
  | .setPageTitle t => ({ s with pageTitle := t }, none)
  | .commitPageTitle => (s, reconvert s)
  | .setCssPrefix p => ({ s with cssPrefix := p }, none)
  | .commitCssPrefix => (s, reconvert s)
  | .setCommentCssClassPrefix p => ({ s with commentCssClassPrefix := p }, none)
  | .commitCommentCssClassPrefix => (s, reconvert s)
  | .setAdditionalCss c => ({ s with additionalCss := c }, none)
  | .commitAdditionalCss => (s, reconvert s)
  | .setFabricateClasses b =>
      ({ s with fabricateClasses := b },
       s.pendingFile.map (fun f =>
         (f, { getConvertOptions s with fabricateClasses := b })))

/-- The settings events whose handlers invoke the engine (directly or through
`reconvert`); the remaining events only store state. -/
def triggersConversion : SettingsEvent → Bool
  | .setCommentMode _ => true
  | .togglePagination _ => true
  | .commitPaginationScale => true
  | .commitPageTitle => true
  | .commitCssPrefix => true
  | .commitCommentCssClassPrefix => true
  | .commitAdditionalCss => true
  | .setFabricateClasses _ => true
  | _ => false

/-- A concrete viewer state with a file loaded, used to instantiate the
claims about `DocumentViewer`. -/
def c1State : ViewerState :=
  { fileName := "contract.docx"
    commentMode := .disabled
    pendingFile := some 0
    enablePagination := true
    paginationScale := 4/5
    showPageNumbers := true
    pageTitle := "Document"
    cssPrefix := "docx-"
    fabricateClasses := true
    additionalCss := ""
    commentCssClassPrefix := "comment-" }

/-- The options emitted by the comment-mode handler on `c1State`. -/
def c1Opts : ConvertOptions :=
  { getConvertOptions c1State with commentRenderMode := CommentRenderMode.Margin }

end Docxodus

namespace Docxodus

/-! ## RevisionPanel.tsx: revision statistics and format-change diff -/

/-- The four tracked-change kinds of the spec's revision record. -/
inductive RevisionKind
  | insertion
  | deletion
  | move
  | formatChange
deriving DecidableEq

/-- The `formatChange` payload of a revision: ordered key/value maps of old and
new formatting properties (JS objects preserve string-key insertion order, so
they are modelled as association lists). -/
structure FormatChangeData where
  oldProperties : Option (List (String × String))
  newProperties : Option (List (String × String))
deriving DecidableEq

/-- The revision record consumed by `RevisionPanel.tsx`, per the spec's data
model. -/
structure Revision where
  revisionType : RevisionKind
  author : String
  date : String
  text : String
  moveGroupId : Option Nat
  isMoveSource : Option Bool
  formatChange : Option FormatChangeData
deriving DecidableEq

/-- Modelled from the spec: the `isInsertion` type guard of the external
`docxodus` package — true exactly for records of the insertion kind. -/
def isInsertion (r : Revision) : Bool :=
  match r.revisionType with
  | .insertion => true
  | _ => false

/-- Modelled from the spec: the `isDeletion` type guard of the external
`docxodus` package — true exactly for records of the deletion kind. -/
def isDeletion (r : Revision) : Bool :=
  match r.revisionType with
  | .deletion => true
  | _ => false

/-- Modelled from the spec: the `isMove` type guard of the external `docxodus`
package — true exactly for records of the move kind (source or destination). -/
def isMove (r : Revision) : Bool :=
  match r.revisionType with
  | .move => true
  | _ => false

/-- Modelled from the spec: the `isFormatChange` type guard of the external
`docxodus` package — true exactly for records of the format-change kind. -/
def isFormatChange (r : Revision) : Bool :=
  match r.revisionType with
  | .formatChange => true
  | _ => false

/-- The `stats` object computed in `RevisionPanel` (the spec's `classify`
counts). -/
structure RevisionStats where
  total : Nat
  insertions : Nat
  deletions : Nat
  moves : Nat
  formatting : Nat
deriving DecidableEq

/-- The `stats` memo of `RevisionPanel.tsx`: per-kind counts over the raw
revision list. -/
def stats (revisions : List Revision) : RevisionStats :=
  { total := revisions.length
    insertions := (revisions.filter isInsertion).length
    deletions := (revisions.filter isDeletion).length
    moves := (revisions.filter isMove).length
    formatting := (revisions.filter isFormatChange).length }

/-- `isValidPropertyValue` from `RevisionPanel.tsx`: rejects empty values, raw
XML fragments (containing `<`, `xmlns`, or `Unid=`), and values longer than
100 characters. -/
def isValidPropertyValue (v : String) : Bool :=
  if v = "" then false
  else if containsSub v "<" then false
  else if containsSub v "xmlns" then false
  else if containsSub v "Unid=" then false
  else if 100 < v.length then false
  else true

/-- The `replace(/([A-Z])/g, ' $1')` pass of `formatPropertyName`: a space is
inserted before every ASCII uppercase letter. -/
def spaceBeforeUpper : List Char → List Char
  | [] => []
  | c :: cs =>
      if c.isUpper then ' ' :: c :: spaceBeforeUpper cs
      else c :: spaceBeforeUpper cs

/-- The `replace(/^./, toUpperCase)` pass of `formatPropertyName`: the first
character is upper-cased. -/
def upperFirst : List Char → List Char
  | [] => []
  | c :: cs => c.toUpper :: cs

/-- JS `String.prototype.trim` on a character list. -/
def trimWs (l : List Char) : List Char :=
  ((l.dropWhile Char.isWhitespace).reverse.dropWhile Char.isWhitespace).reverse

/-- `formatPropertyName` from `RevisionPanel.tsx`: camelCase to
"Title Case With Spaces". -/
def formatPropertyName (name : String) : String :=
  String.mk (trimWs (upperFirst (spaceBeforeUpper name.toList)))

/-- `formatPropertyValue` from `RevisionPanel.tsx`. -/
def formatPropertyValue (v : String) : String :=
  if v = "true" then "Yes"
  else if v = "false" then "No"
  else if v = "single" then "Single"
  else if v = "double" then "Double"
  else v

/-- One entry of the format-change diff (`FormatChangeItem` in
`RevisionPanel.tsx`). -/
structure FormatChangeItem where
  property : String
  oldValue : Option String
  newValue : Option String
deriving DecidableEq

/-- JS object property lookup `props[key]` on the association-list model. -/
def lookupKV (k : String) : List (String × String) → Option String
  | [] => none
  | kv :: rest => if kv.1 = k then some kv.2 else lookupKV k rest

/-- Membership in the `processedKeys` set of `getFormatChanges`. -/
def hasKey (k : String) : List String → Bool
  | [] => false
  | a :: rest => if a = k then true else hasKey k rest

/-- The `newValue` field computed for a key in the old-properties loop of
`getFormatChanges`: the valid new value under the same key, formatted, else
`undefined`. -/
def pairedNewValue (newProps : List (String × String)) (k : String) : Option String :=
  match lookupKV k newProps with
  | some nv => if isValidPropertyValue nv then some (formatPropertyValue nv) else none
  | none => none

/-- The old-properties loop of `getFormatChanges`, carried out by a fold over
the entry list: the accumulator is the `processedKeys` list paired with the
`changes` list, both in insertion order. -/
def oldPropsPass (newProps : List (String × String)) :
    List String × List FormatChangeItem → List (String × String) →
    List String × List FormatChangeItem
  | acc, [] => acc
  | acc, kv :: rest =>
      if isValidPropertyValue kv.2 then
        oldPropsPass newProps
          (acc.1 ++ [kv.1],
           acc.2 ++ [{ property := formatPropertyName kv.1
                       oldValue := some (formatPropertyValue kv.2)
                       newValue := pairedNewValue newProps kv.1 }]) rest
      else oldPropsPass newProps acc rest

/-- The new-properties loop of `getFormatChanges`: keys already processed in the
old loop are skipped, invalid values are skipped, the rest become add-only
entries. -/
def newPropsPass (processedKeys : List String) :
    List FormatChangeItem → List (String × String) → List FormatChangeItem
  | acc, [] => acc
  | acc, kv :: rest =>
      if hasKey kv.1 processedKeys then newPropsPass processedKeys acc rest
      else if isValidPropertyValue kv.2 then
        newPropsPass processedKeys
          (acc ++ [{ property := formatPropertyName kv.1
                     oldValue := none
                     newValue := some (formatPropertyValue kv.2) }]) rest
      else newPropsPass processedKeys acc rest

/-- `getFormatChanges` from `RevisionPanel.tsx` (the spec's `diffFormat`). -/
def getFormatChanges (rev : Revision) : List FormatChangeItem :=
  match rev.formatChange with
  | none => []
  | some fc =>
      let oldProps := fc.oldProperties.getD []
      let newProps := fc.newProperties.getD []
      let pass1 := oldPropsPass newProps ([], []) oldProps
      newPropsPass pass1.1 pass1.2 newProps

/-- The keys of `oldProperties` that survive the validity filter, i.e. the
final contents of `processedKeys`. -/
def validOldKeys (oldProps : List (String × String)) : List String :=
  (oldProps.filter (fun kv => isValidPropertyValue kv.2)).map Prod.fst

/-- The diff entry produced by the old-properties loop for one surviving
entry. -/
def oldEntry (newProps : List (String × String)) (kv : String × String) : FormatChangeItem :=
  { property := formatPropertyName kv.1
    oldValue := some (formatPropertyValue kv.2)
    newValue := pairedNewValue newProps kv.1 }

/-- The add-only diff entry produced by the new-properties loop for one
surviving entry. -/
def addOnlyEntry (kv : String × String) : FormatChangeItem :=
  { property := formatPropertyName kv.1
    oldValue := none
    newValue := some (formatPropertyValue kv.2) }

/-- A format-change revision with the given old/new property maps (the other
record fields are irrelevant to the diff). -/
def mkFormatRev (oldProps newProps : List (String × String)) : Revision :=
  { revisionType := .formatChange
    author := ""
    date := ""
    text := ""
    moveGroupId := none
    isMoveSource := none
    formatChange := some { oldProperties := some oldProps, newProperties := some newProps } }

end Docxodus

namespace Docxodus

/-! ## AnnotationViewer.tsx: the add/remove/download pipeline -/

/-- An annotation record as reported by the engine (the spec's data model). -/
structure Annot where
  id : String
  labelId : String
  label : String
  color : String
  annotatedText : Option String
  author : Option String
  created : Option String
deriving DecidableEq

/-- The `AddAnnotationRequest` dispatched to the engine. `occurrence` is an
`Int`, since JS `parseInt` can produce any integer. -/
structure AddAnnotRequest where
  id : String
  labelId : String
  label : String
  color : Option String
  searchText : String
  occurrence : Int
deriving DecidableEq

/-- The `newAnnotation` form state (`Partial<AddAnnotationRequest>`): every
field may be `undefined`. An unparseable numeric input (JS `NaN`) is modelled
as `none` before the `|| 1` defaulting is applied. -/
structure NewAnnotForm where
  id : Option String
  labelId : Option String
  label : Option String
  color : Option String
  searchText : Option String
  occurrence : Option Int
deriving DecidableEq

/-- The initial (and after a successful add, the reset) `newAnnotation` form
state. -/
def initialForm : NewAnnotForm :=
  { id := some ""
    labelId := some ""
    label := some ""
    color := some "#FFEB3B"
    searchText := some ""
    occurrence := some 1 }

/-- JS falsiness of an optional string (`undefined` or the empty string). -/
def strFalsy (o : Option String) : Bool :=
  match o with
  | none => true
  | some s => s = ""

/-- The label `onChange` handler of the add form. -/
def labelChange (f : NewAnnotForm) (v : String) : NewAnnotForm :=
  { f with label := some v }

/-- The search-text `onChange` handler of the add form. -/
def searchTextChange (f : NewAnnotForm) (v : String) : NewAnnotForm :=
  { f with searchText := some v }

/-- The color `onChange` handler of the add form. -/
def colorChange (f : NewAnnotForm) (v : String) : NewAnnotForm :=
  { f with color := some v }

/-- The occurrence `onChange` handler of the add form:
`parseInt(e.target.value) || 1` — `NaN` (modelled `none`) and `0` fall back to
`1`, every other parsed integer is stored as typed. -/
def occurrenceChange (f : NewAnnotForm) (parsed : Option Int) : NewAnnotForm :=
  { f with occurrence := some (match parsed with
      | some n => if n = 0 then 1 else n
      | none => 1) }

/-- The form states reachable in `AnnotationViewer`: the initial state, plus
anything the four form inputs can produce (there is no input for `id` or
`labelId`). -/
inductive ReachableForm : NewAnnotForm → Prop
  | init : ReachableForm initialForm
  | labelStep (f : NewAnnotForm) (v : String) :
      ReachableForm f → ReachableForm (labelChange f v)
  | searchTextStep (f : NewAnnotForm) (v : String) :
      ReachableForm f → ReachableForm (searchTextChange f v)
  | colorStep (f : NewAnnotForm) (v : String) :
      ReachableForm f → ReachableForm (colorChange f v)
  | occurrenceStep (f : NewAnnotForm) (parsed : Option Int) :
      ReachableForm f → ReachableForm (occurrenceChange f parsed)

/-- `label.toLowerCase().replace(/\s+/g, '_')`, run-collapsing pass: each
maximal run of whitespace becomes a single underscore. The flag records
whether the previous character was whitespace. -/
def collapseWsAux : Bool → List Char → List Char
  | _, [] => []
  | prevWs, c :: cs =>
      if c.isWhitespace then
        if prevWs then collapseWsAux true cs
        else '_' :: collapseWsAux true cs
      else c :: collapseWsAux false cs

/-- The derived label id: the label lower-cased with whitespace runs replaced
by underscores (line 70 of `AnnotationViewer.tsx`). -/
def slugId (label : String) : String :=
  String.mk (collapseWsAux false (label.toList.map Char.toLower))

/-- The `labelId || slug || ''` fallback chain of the request construction. -/
def derivedLabelId (f : NewAnnotForm) : String :=
  jsOrStr (f.labelId.getD "")
    (jsOrStr (match f.label with
      | some l => slugId l
      | none => "") "")

/-- The `AddAnnotationRequest` literal built in `handleAddAnnotation`
(lines 68–75): `id` defaults to a timestamp-generated one, `labelId` is
derived from the label, `occurrence` defaults falsy values to 1. `now` stands
for `Date.now()`. -/
def buildAddRequest (f : NewAnnotForm) (now : Nat) : AddAnnotRequest :=
  { id := jsOrStr (f.id.getD "") ("annot-" ++ Nat.repr now)
    labelId := derivedLabelId f
    label := f.label.getD ""
    color := f.color
    searchText := f.searchText.getD ""
    occurrence := match f.occurrence with
      | some n => if n = 0 then 1 else n
      | none => 1 }

/-- The engine's response to `addAnnotation` (spec §6): a success flag, the
annotation created, and the mutated document bytes. -/
structure AddAnnotResult where
  success : Bool
  annot : Option Annot
  mutatedBytes : Option (List Nat)
deriving DecidableEq

/-- The engine's response to `removeAnnotation` (spec §6): the resulting
annotation list and the mutated bytes. -/
structure RemoveAnnotResult where
  annotations : List Annot
  mutatedBytes : List Nat
deriving DecidableEq

/-- The `AnnotationViewer` component state: the hook-owned annotation list and
mutated byte buffer plus the local form/error/busy state. -/
structure AnnState where
  fileName : String
  annotations : List Annot
  documentBytes : Option (List Nat)
  form : NewAnnotForm
  showAddForm : Bool
  addError : Option String
  isAdding : Bool
deriving DecidableEq

/-- Modelled from the spec: how the `useAnnotations` hook (external
`docxodus/react`, not part of the repository source) applies an engine add
result — on success the returned annotation is appended to the list and the
document bytes are replaced by the engine's mutated buffer; on a non-success
result the state is unchanged. -/
def applyAddResult (st : AnnState) (r : AddAnnotResult) : AnnState :=
  if r.success then
    { st with annotations := st.annotations ++ r.annot.toList
              documentBytes := r.mutatedBytes }
  else st

/-- The outcome of one `handleAddAnnotation` call, distinguishing the local
validation failure (no engine call) from a dispatched request. -/
inductive AddStep
  | validationFailed
  | dispatched (req : AddAnnotRequest)
deriving DecidableEq

/-- `handleAddAnnotation` from `AnnotationViewer.tsx`, as a pure step: the
engine is an explicit function returning either a result or a thrown error
message. Validation failure sets the error and returns before any engine
call; on a dispatched request the hook state is updated per `applyAddResult`,
a success resets the form, a non-success or thrown error sets `addError`. -/
def handleAddAnnot (st : AnnState) (now : Nat)
    (engine : AddAnnotRequest → Except String AddAnnotResult) : AnnState × AddStep :=
  if strFalsy st.form.label || strFalsy st.form.searchText then
    ({ st with addError := some "Label and search text are required" }, .validationFailed)
  else
    let req := buildAddRequest st.form now
    match engine req with
    | .ok r =>
        if r.success then
          ({ applyAddResult st r with
              form := initialForm
              showAddForm := false
              addError := none
              isAdding := false }, .dispatched req)
        else
          ({ applyAddResult st r with
              addError := some "Failed to add annotation"
              isAdding := false }, .dispatched req)
    | .error e => ({ st with addError := some e, isAdding := false }, .dispatched req)

/-- `handleRemoveAnnotation` from `AnnotationViewer.tsx`, composed with the
hook's remove (modelled from the spec: on engine success the hook state takes
the engine-reported list and bytes; on rejection the hook state is unchanged
and the error propagates, where the component's `try/catch` swallows it into
a `console.error` log, returned here as the optional log message). -/
def handleRemoveAnnot (st : AnnState)
    (engine : String → Except String RemoveAnnotResult) (id : String) :
    AnnState × Option String :=
  match engine id with
  | .ok r =>
      ({ st with annotations := r.annotations, documentBytes := some r.mutatedBytes }, none)
  | .error e => (st, some ("Failed to remove annotation: " ++ e))

/-- A produced download: the file name handed to the anchor element and the
blob's bytes. -/
structure DownloadFile where
  name : String
  bytes : List Nat
deriving DecidableEq

/-- `handleDownload` from `AnnotationViewer.tsx`: a no-op without
`documentBytes`; otherwise the buffer is exported under
`fileName.replace('.docx', '-annotated.docx')` (JS `replace` rewrites only the
first occurrence). -/
def handleDownload (st : AnnState) : Option DownloadFile :=
  match st.documentBytes with
  | none => none
  | some b => some { name := replaceFirst st.fileName ".docx" "-annotated.docx", bytes := b }

end Docxodus

namespace Docxodus

/-! ## Concrete instances used to settle the claims -/

/-- A concrete move-source revision record. -/
def c2Move : Revision :=
  { revisionType := .move
    author := "a"
    date := "2024-01-01"
    text := "moved text"
    moveGroupId := some 1
    isMoveSource := some true
    formatChange := none }

/-- A format change whose old value is a raw XML fragment but whose new value
is clean. -/
def c3Rev : Revision := mkFormatRev [("bold", "<w:b/>")] [("bold", "true")]

/-- A format change whose only old property has an XML-namespace value and
which has no new properties. -/
def c4Rev : Revision := mkFormatRev [("italic", "xmlns:w")] []

/-- The format change of the spec's `diffFormat` example. -/
def c5Rev : Revision := mkFormatRev [("bold", "true")] [("bold", "false")]

/-- A viewer state whose add form is still in its initial, empty state. -/
def c6State : AnnState :=
  { fileName := "a.docx"
    annotations := []
    documentBytes := none
    form := initialForm
    showAddForm := true
    addError := none
    isAdding := false }

/-- An engine stub that would report a non-success result if it were called. -/
def c6Engine : AddAnnotRequest → Except String AddAnnotResult :=
  fun _ => Except.ok { success := false, annot := none, mutatedBytes := none }

/-- A concrete pre-existing annotation. -/
def c7Annot : Annot :=
  { id := "a1"
    labelId := "key"
    label := "Key"
    color := "#FFEB3B"
    annotatedText := none
    author := none
    created := none }

/-- A viewer state that already holds one annotation and a mutated buffer. -/
def c7State : AnnState :=
  { fileName := "a.docx"
    annotations := [c7Annot]
    documentBytes := some [9]
    form := initialForm
    showAddForm := false
    addError := none
    isAdding := false }

/-- An engine stub rejecting every removal. -/
def c7Engine : String → Except String RemoveAnnotResult :=
  fun _ => Except.error "annotation not found"

/-- A mutated document whose file name does not end in `.docx`. -/
def c8State : AnnState :=
  { fileName := "notes.txt"
    annotations := [c7Annot]
    documentBytes := some [1, 2, 3]
    form := initialForm
    showAddForm := false
    addError := none
    isAdding := false }

/-- A mutated document under a conventional `.docx` file name. -/
def c8DocxState : AnnState :=
  { fileName := "report.docx"
    annotations := [c7Annot]
    documentBytes := some [7]
    form := initialForm
    showAddForm := false
    addError := none
    isAdding := false }

/-- A filled add form with no id supplied (the form has no id input, so the
field keeps its initial empty value). -/
def c9Form : NewAnnotForm :=
  labelChange (searchTextChange initialForm "liability") "Key Term"

/-- The annotation the engine reports for the `c9Form` request. -/
def c9Annot : Annot :=
  { id := "annot-7"
    labelId := "key_term"
    label := "Key Term"
    color := "#FFEB3B"
    annotatedText := some "liability"
    author := none
    created := none }

/-- A successful engine add result carrying one annotation. -/
def c9Result : AddAnnotResult :=
  { success := true, annot := some c9Annot, mutatedBytes := some [1, 2] }

/-- An engine stub answering every add request with `c9Result`. -/
def c9Engine : AddAnnotRequest → Except String AddAnnotResult :=
  fun _ => Except.ok c9Result

/-- The viewer state holding the filled `c9Form`. -/
def c9State : AnnState :=
  { fileName := "contract.docx"
    annotations := []
    documentBytes := none
    form := c9Form
    showAddForm := true
    addError := none
    isAdding := false }

/-- A filled form whose occurrence input received the parseable negative
number `-2`. -/
def c10Form : NewAnnotForm :=
  labelChange (searchTextChange (occurrenceChange initialForm (some (-2))) "liability") "Key Term"

/-- The viewer state holding `c10Form`. -/
def c10State : AnnState :=
  { fileName := "contract.docx"
    annotations := []
    documentBytes := none
    form := c10Form
    showAddForm := true
    addError := none
    isAdding := false }

/-- An engine stub accepting every add request without payload. -/
def c10Engine : AddAnnotRequest → Except String AddAnnotResult :=
  fun _ => Except.ok { success := true, annot := none, mutatedBytes := none }

end Docxodus

namespace Docxodus

/-! ## Theorems -/

/-- C1: for every settings-change event, the handler dispatches an engine
conversion call exactly when the event is one of the conversion-wired events
and a file is loaded; every dispatched call targets the pending file and
carries the options computed from the merged (post-event) settings. This is
the amended form of the claim: the `showPageNumbers` change (and the plain
`set…` text/scale changes, whose re-invocation happens on their separate
commit events) stores state without an engine call even when a file is
loaded. -/
theorem settings_convert_iff_file_loaded (s : ViewerState) (e : SettingsEvent) :
    ((handleSettingsEvent s e).2.isSome = (triggersConversion e && s.pendingFile.isSome))
    ∧ (∀ f opts, (handleSettingsEvent s e).2 = some (f, opts) →
        s.pendingFile = some f ∧ opts = getConvertOptions (handleSettingsEvent s e).1) := by
  cases e <;> cases hp : s.pendingFile <;>
    simp [handleSettingsEvent, triggersConversion, reconvert, hp, getConvertOptions,
      getCommentRenderMode] <;>
    exact fun f opts h => by cases h; exact ⟨rfl, rfl⟩

/-- C1 counterexample: with a file loaded, toggling `showPageNumbers` makes no
engine conversion call, contradicting the claim that merging any recognized
settings field (including `showPageNumbers`) triggers a new conversion. -/
theorem showPageNumbers_no_reconvert :
    c1State.pendingFile.isSome = true
    ∧ (handleSettingsEvent c1State (SettingsEvent.setShowPageNumbers false)).2 = none :=
  ⟨rfl, rfl⟩

/-- C1 witness: the comment-mode change on a loaded file dispatches a call to
that file with the merged options. -/
theorem settings_convert_iff_file_loaded_witness :
    c1State.pendingFile = some 0
    ∧ c1Opts = getConvertOptions
        (handleSettingsEvent c1State (SettingsEvent.setCommentMode CommentMode.margin)).1 :=
  (settings_convert_iff_file_loaded c1State (SettingsEvent.setCommentMode CommentMode.margin)).2
    0 c1Opts rfl

/-- C2: the revision statistics count, for each of the four kinds, exactly the
records of that kind in the list; in particular every Move record — source or
destination alike — contributes exactly one to the `moves` count. -/
theorem stats_counts (rs : List Revision) :
    ((stats rs).insertions = rs.countP isInsertion
      ∧ (stats rs).deletions = rs.countP isDeletion
      ∧ (stats rs).moves = rs.countP isMove
      ∧ (stats rs).formatting = rs.countP isFormatChange)
    ∧ (∀ (l₁ l₂ : List Revision) (r : Revision), isMove r = true → rs = l₁ ++ r :: l₂ →
        (stats rs).moves = (stats (l₁ ++ l₂)).moves + 1) := by
  constructor
  · simp [stats, List.countP_eq_length_filter]
  · intro l₁ l₂ r h hrs
    subst hrs
    simp [stats, List.filter_append, List.filter_cons, h]
    omega

/-- C2 witness: a single move-source record is counted once. -/
theorem stats_counts_witness :
    (stats [c2Move]).moves = (stats ([] ++ ([] : List Revision))).moves + 1 :=
  (stats_counts [c2Move]).2 [] [] c2Move rfl rfl

/-- The old-properties loop appends, after any accumulated prefix, the
processed keys and one paired entry per old entry with a valid value, in list
order. -/
theorem oldPropsPass_eq (newProps : List (String × String)) (l : List (String × String)) :
    ∀ ks items, oldPropsPass newProps (ks, items) l =
      (ks ++ validOldKeys l,
       items ++ (l.filter fun kv => isValidPropertyValue kv.2).map (oldEntry newProps)) := by
  induction l with
  | nil => intro ks items; simp [oldPropsPass, validOldKeys]
  | cons kv rest ih =>
      intro ks items
      by_cases h : isValidPropertyValue kv.2
      · simp [oldPropsPass, h, ih, validOldKeys, List.filter_cons, oldEntry]
      · simp [oldPropsPass, h, ih, validOldKeys, List.filter_cons]

/-- The new-properties loop appends one add-only entry per new entry whose key
is not among the processed keys and whose value is valid, in list order. -/
theorem newPropsPass_eq (ks : List String) (l : List (String × String)) :
    ∀ acc, newPropsPass ks acc l =
      acc ++ (l.filter fun kv => !hasKey kv.1 ks && isValidPropertyValue kv.2).map addOnlyEntry := by
  induction l with
  | nil => intro acc; simp [newPropsPass]
  | cons kv rest ih =>
      intro acc
      by_cases hk : hasKey kv.1 ks
      · simp [newPropsPass, hk, ih, List.filter_cons]
      · by_cases hv : isValidPropertyValue kv.2
        · simp [newPropsPass, hk, hv, ih, List.filter_cons, addOnlyEntry]
        · simp [newPropsPass, hk, hv, ih, List.filter_cons]

/-- Closed form of `getFormatChanges`: the paired entries for the valid old
properties, followed by the add-only entries for the valid new properties
whose keys have no valid old value. -/
theorem getFormatChanges_closed_form (oldProps newProps : List (String × String)) :
    getFormatChanges (mkFormatRev oldProps newProps) =
      (oldProps.filter fun kv => isValidPropertyValue kv.2).map (oldEntry newProps)
      ++ (newProps.filter fun kv =>
            !hasKey kv.1 (validOldKeys oldProps) && isValidPropertyValue kv.2).map addOnlyEntry := by
  simp [getFormatChanges, mkFormatRev, oldPropsPass_eq, newPropsPass_eq]

/-- A key absent from a list (per `lookupKV`) stays absent after filtering. -/
theorem lookupKV_filter_of_none (k : String) (p : String × String → Bool)
    (l : List (String × String)) (h : lookupKV k l = none) :
    lookupKV k (l.filter p) = none := by
  induction l with
  | nil => simp [lookupKV]
  | cons kv rest ih =>
      by_cases hk : kv.1 = k
      · simp [lookupKV, hk] at h
      · rw [lookupKV] at h
        simp only [hk, if_false] at h
        by_cases hp : p kv <;> simp [List.filter_cons, hp, lookupKV, hk, ih h]

/-- A key not among the mapped first components has no `lookupKV` value. -/
theorem lookupKV_eq_none_of_not_mem (k : String) (l : List (String × String))
    (h : k ∉ l.map Prod.fst) : lookupKV k l = none := by
  induction l with
  | nil => rfl
  | cons kv rest ih =>
      simp only [List.map_cons, List.mem_cons, not_or] at h
      have hk : kv.1 ≠ k := fun hh => h.1 hh.symm
      simp [lookupKV, hk, ih h.2]

/-- Under key uniqueness, looking a key up in the validity-filtered list is the
same as looking it up first and then filtering the value. -/
theorem lookupKV_filter_valid (k : String) (l : List (String × String))
    (h : (l.map Prod.fst).Nodup) :
    lookupKV k (l.filter fun kv => isValidPropertyValue kv.2) =
      (match lookupKV k l with
        | some v => if isValidPropertyValue v then some v else none
        | none => none) := by
  induction l with
  | nil => simp [lookupKV]
  | cons kv rest ih =>
      simp only [List.map_cons, List.nodup_cons] at h
      by_cases hk : kv.1 = k
      · subst hk
        by_cases hv : isValidPropertyValue kv.2
        · simp [List.filter_cons, hv, lookupKV]
        · have hn : lookupKV kv.1 rest = none :=
            lookupKV_eq_none_of_not_mem kv.1 rest h.1
          simp [List.filter_cons, hv, lookupKV,
            lookupKV_filter_of_none kv.1 _ rest hn]
      · by_cases hv : isValidPropertyValue kv.2 <;>
          simp [List.filter_cons, hv, lookupKV, hk, ih h.2]

/-- Under key uniqueness, an invalid-valued entry of `newProperties`
contributes no paired new value, so pre-filtering the new properties does not
change the pairing. -/
theorem pairedNewValue_filter (newProps : List (String × String))
    (h : (newProps.map Prod.fst).Nodup) (k : String) :
    pairedNewValue (newProps.filter fun kv => isValidPropertyValue kv.2) k =
      pairedNewValue newProps k := by
  unfold pairedNewValue
  rw [lookupKV_filter_valid k newProps h]
  cases hl : lookupKV k newProps with
  | none => simp
  | some v => by_cases hv : isValidPropertyValue v <;> simp [hv]

/-- Filtering the old properties by value validity does not change which keys
count as processed. -/
theorem validOldKeys_filter (oldProps : List (String × String)) :
    validOldKeys (oldProps.filter fun kv => isValidPropertyValue kv.2) =
      validOldKeys oldProps := by
  simp [validOldKeys, List.filter_filter]

/-- C3 (amended): a property value that fails the validity filter (empty,
containing `<`, `xmlns`, or `Unid=`, or longer than 100 characters) is dropped
from its own side of the diff only, so the diff is unchanged when the invalid
entries are removed from both maps up front; a property disappears entirely
only when it has no valid value on either side, while an invalid old value
paired with a valid new value still yields an add-only entry. -/
theorem diffFormat_drops_invalid_values (oldProps newProps : List (String × String))
    (h : (newProps.map Prod.fst).Nodup) :
    getFormatChanges (mkFormatRev oldProps newProps) =
      getFormatChanges
        (mkFormatRev (oldProps.filter fun kv => isValidPropertyValue kv.2)
          (newProps.filter fun kv => isValidPropertyValue kv.2)) := by
  rw [getFormatChanges_closed_form, getFormatChanges_closed_form]
  have hmap : (oldProps.filter fun kv => isValidPropertyValue kv.2).map
        (oldEntry (newProps.filter fun kv => isValidPropertyValue kv.2)) =
      (oldProps.filter fun kv => isValidPropertyValue kv.2).map (oldEntry newProps) := by
    apply List.map_congr_left
    intro kv _
    simp [oldEntry, pairedNewValue_filter newProps h]
  rw [List.filter_filter, validOldKeys_filter, List.filter_filter]
  have hpred : (fun kv : String × String =>
        isValidPropertyValue kv.2 && isValidPropertyValue kv.2) =
      (fun kv : String × String => isValidPropertyValue kv.2) := by
    funext kv; cases hv : isValidPropertyValue kv.2 <;> simp [hv]
  have hpred2 : (fun kv : String × String =>
        (!hasKey kv.1 (validOldKeys oldProps) && isValidPropertyValue kv.2)
          && isValidPropertyValue kv.2) =
      (fun kv : String × String =>
        !hasKey kv.1 (validOldKeys oldProps) && isValidPropertyValue kv.2) := by
    funext kv
    cases hv : isValidPropertyValue kv.2 <;>
      cases hkk : hasKey kv.1 (validOldKeys oldProps) <;> simp [hv, hkk]
  rw [hpred, hpred2, hmap]

/-- C3 counterexample: the old `bold` value `<w:b/>` contains `<`, yet the
property is not excluded entirely from the diff — it reappears as an add-only
entry carrying the valid new value. -/
theorem diffFormat_invalid_old_still_appears :
    containsSub "<w:b/>" "<" = true
    ∧ getFormatChanges c3Rev =
        [{ property := "Bold", oldValue := none, newValue := some "Yes" }] := by
  decide

/-- C3 witness: the filter equation at the concrete `bold` maps. -/
theorem diffFormat_drops_invalid_values_witness :
    getFormatChanges (mkFormatRev [("bold", "<w:b/>")] [("bold", "true")]) =
      getFormatChanges
        (mkFormatRev ([("bold", "<w:b/>")].filter fun kv => isValidPropertyValue kv.2)
          ([("bold", "true")].filter fun kv => isValidPropertyValue kv.2)) :=
  diffFormat_drops_invalid_values [("bold", "<w:b/>")] [("bold", "true")] (by decide)

/-- C4 (amended): `diffFormat` produces first one paired entry per key of
`oldProperties` with a valid value (in map order, each paired with the valid
value under the same key in `newProperties` when present), then one add-only
entry per valid-valued key of `newProperties` that did not occur in
`oldProperties` with a valid value. -/
theorem diffFormat_order (oldProps newProps : List (String × String)) :
    getFormatChanges (mkFormatRev oldProps newProps) =
      (oldProps.filter fun kv => isValidPropertyValue kv.2).map (oldEntry newProps)
      ++ (newProps.filter fun kv =>
            !hasKey kv.1 (validOldKeys oldProps) && isValidPropertyValue kv.2).map addOnlyEntry :=
  getFormatChanges_closed_form oldProps newProps

/-- C4 counterexample: the single old key `italic` yields no entry at all
(its value contains `xmlns`), contradicting the claim of one entry per key of
`oldProperties`. -/
theorem diffFormat_order_cx :
    getFormatChanges c4Rev = []
    ∧ (c4Rev.formatChange.map fun fc => (fc.oldProperties.getD []).length) = some 1 := by
  decide

/-- C5: `diffFormat` on `oldProperties = ("bold" : "true")` and
`newProperties = ("bold" : "false")` yields exactly the single entry with the
title-cased property name `Bold`, old value `Yes`, and new value `No`. -/
theorem diffFormat_bold_example :
    getFormatChanges c5Rev =
      [{ property := "Bold", oldValue := some "Yes", newValue := some "No" }] := by
  decide

/-- C6: with an empty (or missing) label or search text, the add handler fails
with the local validation error before any dispatch: no engine request is
issued, the annotation list and document bytes are untouched, and the error
message is set synchronously. -/
theorem add_validation_before_dispatch (st : AnnState) (now : Nat)
    (engine : AddAnnotRequest → Except String AddAnnotResult)
    (h : strFalsy st.form.label = true ∨ strFalsy st.form.searchText = true) :
    (handleAddAnnot st now engine).2 = AddStep.validationFailed
    ∧ (handleAddAnnot st now engine).1.annotations = st.annotations
    ∧ (handleAddAnnot st now engine).1.documentBytes = st.documentBytes
    ∧ (handleAddAnnot st now engine).1.addError =
        some "Label and search text are required" := by
  have hb : (strFalsy st.form.label || strFalsy st.form.searchText) = true := by
    rcases h with h | h <;> simp [h]
  simp [handleAddAnnot, hb]

/-- C6 witness: the initial, empty form fails validation and leaves the state
untouched. -/
theorem add_validation_before_dispatch_witness :
    (handleAddAnnot c6State 0 c6Engine).2 = AddStep.validationFailed
    ∧ (handleAddAnnot c6State 0 c6Engine).1.annotations = c6State.annotations
    ∧ (handleAddAnnot c6State 0 c6Engine).1.documentBytes = c6State.documentBytes
    ∧ (handleAddAnnot c6State 0 c6Engine).1.addError =
        some "Label and search text are required" :=
  add_validation_before_dispatch c6State 0 c6Engine (Or.inl rfl)

/-- C7: the remove handler is total — it never propagates an engine failure;
the resulting annotation list is exactly whatever list the engine reports on
success, and on rejection the state is unchanged and the failure is swallowed
into the local log message. -/
theorem remove_never_throws (st : AnnState)
    (engine : String → Except String RemoveAnnotResult) (id : String) :
    ((handleRemoveAnnot st engine id).1.annotations =
      (match engine id with
        | .ok r => r.annotations
        | .error _ => st.annotations))
    ∧ (∀ e, engine id = .error e →
        handleRemoveAnnot st engine id = (st, some ("Failed to remove annotation: " ++ e))) := by
  constructor
  · cases he : engine id <;> simp [handleRemoveAnnot, he]
  · intro e he
    simp [handleRemoveAnnot, he]

/-- C7 witness: removing an id the engine rejects leaves the one-element list
unchanged and only logs. -/
theorem remove_never_throws_witness :
    ((handleRemoveAnnot c7State c7Engine "missing").1.annotations =
      (match c7Engine "missing" with
        | .ok r => r.annotations
        | .error _ => c7State.annotations))
    ∧ handleRemoveAnnot c7State c7Engine "missing" =
        (c7State, some ("Failed to remove annotation: " ++ "annotation not found")) :=
  ⟨(remove_never_throws c7State c7Engine "missing").1,
    (remove_never_throws c7State c7Engine "missing").2 "annotation not found" rfl⟩

/-- C8 (amended): `download()` produces no file exactly when `documentBytes`
is absent; when bytes are present it exports them byte-identically under the
file name with its first occurrence of `.docx` replaced by `-annotated.docx`
(which inserts the `-annotated` suffix before the extension only for a
conventional name whose first `.docx` is its extension; a name without
`.docx` is exported unchanged). -/
theorem download_requires_bytes (st : AnnState) :
    (handleDownload st = none ↔ st.documentBytes = none)
    ∧ (∀ b, st.documentBytes = some b →
        handleDownload st =
          some { name := replaceFirst st.fileName ".docx" "-annotated.docx", bytes := b }) := by
  cases hb : st.documentBytes <;> simp [handleDownload, hb]

/-- C8 counterexample: with bytes present but a file name not containing
`.docx`, the exported name is the unchanged original — no `-annotated` suffix
is inserted before the extension. -/
theorem download_name_not_always_suffixed :
    handleDownload c8State = some { name := "notes.txt", bytes := [1, 2, 3] }
    ∧ containsSub "notes.txt" "-annotated" = false := by
  decide

/-- C8 witness: a conventional `.docx` name gets the `-annotated` suffix. -/
theorem download_requires_bytes_witness :
    handleDownload c8DocxState =
      some { name := replaceFirst c8DocxState.fileName ".docx" "-annotated.docx"
             bytes := [7] } :=
  (download_requires_bytes c8DocxState).2 [7] rfl

/-- C9: a valid add request with no id supplied is dispatched with the
generated id `annot-<timestamp>`, which is non-empty, and on engine success
exactly the one engine-returned annotation is appended to the list. -/
theorem add_generates_id (st : AnnState) (now : Nat)
    (engine : AddAnnotRequest → Except String AddAnnotResult)
    (r : AddAnnotResult) (a : Annot)
    (hid : strFalsy st.form.id = true)
    (hl : strFalsy st.form.label = false)
    (hs : strFalsy st.form.searchText = false)
    (he : engine (buildAddRequest st.form now) = Except.ok r)
    (hrs : r.success = true)
    (hra : r.annot = some a) :
    (buildAddRequest st.form now).id = "annot-" ++ Nat.repr now
    ∧ (buildAddRequest st.form now).id ≠ ""
    ∧ (handleAddAnnot st now engine).2 = AddStep.dispatched (buildAddRequest st.form now)
    ∧ (handleAddAnnot st now engine).1.annotations = st.annotations ++ [a] := by
  have hid2 : (buildAddRequest st.form now).id = "annot-" ++ Nat.repr now := by
    cases hoid : st.form.id with
    | none => simp [buildAddRequest, hoid, jsOrStr]
    | some s =>
        have : s = "" := by simpa [strFalsy, hoid] using hid
        simp [buildAddRequest, hoid, this, jsOrStr]
  refine ⟨hid2, ?_, ?_, ?_⟩
  · rw [hid2]
    intro hcontra
    have hlen := congrArg String.length hcontra
    rw [String.length_append] at hlen
    have h6 : ("annot-" : String).length = 6 := rfl
    have h0 : ("" : String).length = 0 := rfl
    rw [h6, h0] at hlen
    omega
  · simp [handleAddAnnot, hl, hs, he, hrs]
  · simp [handleAddAnnot, hl, hs, he, hrs, applyAddResult, hra]

/-- C9 witness: the `Key Term` / `liability` request at timestamp 7 dispatches
with the generated id and appends the engine's annotation. -/
theorem add_generates_id_witness :
    (buildAddRequest c9State.form 7).id = "annot-" ++ Nat.repr 7
    ∧ (buildAddRequest c9State.form 7).id ≠ ""
    ∧ (handleAddAnnot c9State 7 c9Engine).2 = AddStep.dispatched (buildAddRequest c9State.form 7)
    ∧ (handleAddAnnot c9State 7 c9Engine).1.annotations = c9State.annotations ++ [c9Annot] :=
  add_generates_id c9State 7 c9Engine c9Result c9Annot rfl (by decide) (by decide) rfl rfl rfl

/-- A non-empty label yields a non-empty slug id. -/
theorem slugId_ne_empty (l : String) (h : l ≠ "") : slugId l ≠ "" := by
  intro hc
  obtain ⟨data⟩ := l
  cases data with
  | nil => exact h rfl
  | cons c cs =>
      have hdata := congrArg String.data hc
      by_cases hw : (Char.toLower c).isWhitespace <;>
        simp [slugId, collapseWsAux, hw] at hdata

/-- The reachable-form invariant behind C10: the form never sets `labelId`
(no input exists for it), always carries a color, and stores only non-zero
occurrences. -/
theorem reachable_form_invariant (f : NewAnnotForm) (hf : ReachableForm f) :
    f.labelId = some ""
    ∧ f.color.isSome = true
    ∧ (∃ n, f.occurrence = some n ∧ n ≠ 0) := by
  induction hf with
  | init => exact ⟨rfl, rfl, 1, rfl, one_ne_zero⟩
  | labelStep g v _ ih => exact ⟨ih.1, ih.2.1, ih.2.2⟩
  | searchTextStep g v _ ih => exact ⟨ih.1, ih.2.1, ih.2.2⟩
  | colorStep g v _ ih => exact ⟨ih.1, rfl, ih.2.2⟩
  | occurrenceStep g parsed _ ih =>
      refine ⟨ih.1, ih.2.1, ?_⟩
      cases parsed with
      | none => exact ⟨1, rfl, one_ne_zero⟩
      | some n =>
          by_cases hn : n = 0
          · exact ⟨1, by simp [occurrenceChange, hn], one_ne_zero⟩
          · exact ⟨n, by simp [occurrenceChange, hn], hn⟩

/-- C10 (amended): every request built from a reachable form has a non-zero
occurrence (absent, zero, and unparseable inputs are replaced by 1 at entry,
but a parseable non-zero value — including a negative one — passes through,
so `occurrence ≥ 1` is not guaranteed), a non-empty `labelId` derived from
the non-empty label by lower-casing and collapsing whitespace runs to
underscores, and a defined color. -/
theorem dispatched_request_invariant (f : NewAnnotForm) (hf : ReachableForm f) (now : Nat) :
    (buildAddRequest f now).occurrence ≠ 0
    ∧ (strFalsy f.label = false → (buildAddRequest f now).labelId ≠ "")
    ∧ (buildAddRequest f now).color.isSome = true
    ∧ (∀ (g : NewAnnotForm) (parsed : Option Int), (parsed = none ∨ parsed = some 0) →
        (occurrenceChange g parsed).occurrence = some 1) := by
  obtain ⟨hlid, hcol, n, hocc, hn⟩ := reachable_form_invariant f hf
  refine ⟨?_, ?_, ?_, ?_⟩
  · simp [buildAddRequest, hocc, hn]
  · intro hl
    cases hfl : f.label with
    | none => simp [strFalsy, hfl] at hl
    | some l =>
        have hne : l ≠ "" := by simpa [strFalsy, hfl] using hl
        have hslug := slugId_ne_empty l hne
        simp [buildAddRequest, derivedLabelId, hlid, hfl, jsOrStr, hslug]
  · cases hfc : f.color with
    | none => rw [hfc] at hcol; simp at hcol
    | some c => simp [buildAddRequest, hfc]
  · intro g parsed hp
    rcases hp with hp | hp <;> simp [occurrenceChange, hp]

/-- C10 counterexample: the occurrence input accepts the parseable negative
`-2`, which is dispatched unchanged — the engine request violates
`occurrence ≥ 1`. -/
theorem dispatched_negative_occurrence :
    (buildAddRequest c10Form 0).occurrence = -2
    ∧ ¬(1 ≤ (buildAddRequest c10Form 0).occurrence)
    ∧ (handleAddAnnot c10State 0 c10Engine).2 =
        AddStep.dispatched (buildAddRequest c10Form 0) := by
  decide

/-- C10 witness: the invariant instantiated at the reachable one-edit form. -/
theorem dispatched_request_invariant_witness :
    (buildAddRequest (labelChange initialForm "My Term") 3).occurrence ≠ 0
    ∧ (buildAddRequest (labelChange initialForm "My Term") 3).labelId ≠ ""
    ∧ (buildAddRequest (labelChange initialForm "My Term") 3).color.isSome = true := by
  have h := dispatched_request_invariant (labelChange initialForm "My Term")
    (ReachableForm.labelStep initialForm "My Term" ReachableForm.init) 3
  exact ⟨h.1, h.2.1 (by decide), h.2.2.1⟩

end Docxodus
